import Mathlib

/-!
Shallow embedding of the bike-share ingestion core (src/read_bixi.py):
the snapshot decoder (bixi2dict, bixi2np), the day accumulator (read_day),
the grid resampler (resample_time) and the time formatting step
(format_time, the time-array part of day2file), together with theorems
settling the specification claims about them.
-/

namespace Bixi

/-! ### Snapshot decoder: bixi2dict and bixi2np -/

/-- Raw scalar content of one XML element after the external XML-to-tree
conversion.  Numeric text is modelled as already carrying its integer value
(`num`); `null` models a missing/None content; `str` models non-numeric
text. -/
inductive RawVal where
  | num (n : Int)
  | null
  | str (s : String)
deriving DecidableEq

/-- Python int(x): succeeds on numeric content, raises on None and on
non-numeric text (the raise is modelled as `none`). -/
def pyInt : RawVal → Option Int
  | .num n => some n
  | .null => none
  | .str _ => none

/-- Python bool(x): total; bool(None) is False, bool(0) is False,
bool of a nonzero number is True, bool of a string is True iff nonempty. -/
def pyBool : RawVal → Bool
  | .num n => n != 0
  | .null => false
  | .str s => s != ""

/-- Python float(x): succeeds on numeric content, raises otherwise. -/
def pyFloat : RawVal → Option Rat
  | .num n => some (n : Rat)
  | .null => none
  | .str _ => none

/-- One child element of a station node.  The source reads the keys
`name` and `text` of the converted element inside a try/except and skips
the whole element when either lookup fails; a failing lookup is modelled
as the corresponding field being `none`. -/
structure Element where
  name : Option String
  text : Option RawVal
deriving DecidableEq

/-- One station node: the list of its child elements. -/
abbrev StationNode := List Element

/-- The converted capture file.  `lastUpdate` models the top-level
LastUpdate attribute of the capture format; the source decoder never
reads it (it only walks `children`). -/
structure Tree where
  lastUpdate : Option RawVal
  children : List StationNode
deriving DecidableEq

/-- Python dict assignment d[k] = v: replaces the value in place when the
key exists, appends the pair otherwise. -/
def pyDictAssign {α : Type} (m : List (String × α)) (k : String) (v : α) :
    List (String × α) :=
  if m.any (fun p => p.1 == k) then
    m.map (fun p => if p.1 == k then (k, v) else p)
  else m ++ [(k, v)]

/-- The inner loop of bixi2dict over one station node: build the raw field
dictionary, skipping any element whose name or text lookup fails. -/
def buildFields (node : StationNode) : List (String × RawVal) :=
  node.foldl
    (fun m e =>
      match e.name, e.text with
      | some k, some v => pyDictAssign m k v
      | _, _ => m)
    []

/-- One decoded station record, all required fields coerced to their
types.  `name` stays uncoerced (the source only coerces the listed int,
bool and float keys). -/
structure StationRec where
  id : Int
  lastCommWithServer : Int
  lastUpdateTime : Int
  nbBikes : Int
  nbEmptyDocks : Int
  terminalName : Int
  installed : Bool
  locked : Bool
  public : Bool
  temporary : Bool
  lat : Rat
  long : Rat
  name : Option RawVal
deriving DecidableEq

/-- Required int key of a station dictionary: the key lookup (KeyError on
a miss) followed by the int coercion. -/
def lookInt (m : List (String × RawVal)) (k : String) : Option Int :=
  (m.lookup k).bind pyInt

/-- Required float key of a station dictionary. -/
def lookFloat (m : List (String × RawVal)) (k : String) : Option Rat :=
  (m.lookup k).bind pyFloat

/-- Required bool key of a station dictionary: the bool coercion itself is
total but the key lookup can still fail. -/
def lookBool (m : List (String × RawVal)) (k : String) : Option Bool :=
  (m.lookup k).map pyBool

/-- The per-station coercion step of bixi2dict: look up every required key
and coerce it.  A missing key (KeyError) or a failing int/float coercion
is a raised exception, modelled as `none`. -/
def coerceStation (node : StationNode) : Option StationRec :=
  let m := buildFields node
  match lookInt m "id", lookInt m "lastCommWithServer", lookInt m "lastUpdateTime",
      lookInt m "nbBikes", lookInt m "nbEmptyDocks", lookInt m "terminalName",
      lookBool m "installed", lookBool m "locked", lookBool m "public",
      lookBool m "temporary", lookFloat m "lat", lookFloat m "long" with
  | some idv, some lastComm, some lastUpd, some nbB, some nbE, some term,
    some inst, some lock, some pub, some temp, some latv, some longv =>
    some ⟨idv, lastComm, lastUpd, nbB, nbE, term, inst, lock, pub, temp, latv, longv,
      m.lookup "name"⟩
  | _, _, _, _, _, _, _, _, _, _, _, _ => none

/-- Decode errors.  `badXMLFile` is the BadXMLFile exception raised when
the XML parse fails; `uncaught` is any other exception escaping the
decoder (KeyError/TypeError/ValueError from coercion, ValueError from the
max over an empty array), which the callers do not catch. -/
inductive DecodeErr where
  | badXMLFile
  | uncaught
deriving DecidableEq

/-- The station loop of bixi2dict: records are coerced in order and keyed
by str(terminalName); any coercion failure escapes and discards the whole
decode. -/
def stationsFold (acc : List (String × StationRec)) :
    List StationNode → Except DecodeErr (List (String × StationRec))
  | [] => .ok acc
  | node :: rest =>
    match coerceStation node with
    | none => .error .uncaught
    | some r => stationsFold (pyDictAssign acc (toString r.terminalName) r) rest

/-- bixi2dict: `none` input models a file minidom cannot parse
(BadXMLFile); otherwise walk the children of the tree. -/
def bixi2dict (parsed : Option Tree) : Except DecodeErr (List (String × StationRec)) :=
  match parsed with
  | none => .error .badXMLFile
  | some t => stationsFold [] t.children

/-- numpy uint8 cast: wrap modulo 256. -/
def u8 (n : Int) : Nat := (n % 256).toNat

/-- numpy uint32 cast: wrap modulo 2^32. -/
def u32 (n : Int) : Nat := (n % 4294967296).toNat

/-- The per-station time conversion of bixi2np, line
`int(d[station]['lastCommWithServer']/1000)` stored into a uint32 slot:
division by 1000 truncated toward zero, wrapped modulo 2^32. -/
def lastCommSeconds (r : StationRec) : Nat := u32 (Int.tdiv r.lastCommWithServer 1000)

/-- The per-station bikes entry of bixi2np, a uint8 slot. -/
def bikesEntry (r : StationRec) : Nat := u8 r.nbBikes

/-- The per-station max-bikes entry of bixi2np:
`max_bikes[i] = bikes_available[i] + d[station]['nbEmptyDocks']` stored
into a uint8 slot, so the uint8 bikes value plus the raw empty-dock count,
wrapped modulo 256. -/
def maxBikesEntry (r : StationRec) : Nat := u8 ((bikesEntry r : Int) + r.nbEmptyDocks)

/-- Insertion step for sorting the station dictionary by key, modelling
Python sorted(d) over the (unique) keys. -/
def insertByKey (p : String × StationRec) :
    List (String × StationRec) → List (String × StationRec)
  | [] => [p]
  | q :: qs => if p.1 ≤ q.1 then p :: q :: qs else q :: insertByKey p qs

/-- Sort the decoded station dictionary by key (Python sorted(d)). -/
def sortByKey (l : List (String × StationRec)) : List (String × StationRec) :=
  l.foldr insertByKey []

/-- The four return values of bixi2np; the three sequences are parallel,
indexed by the sorted station keys. -/
structure NpOut where
  measurement_time : Nat
  bikes_available : List Nat
  max_bikes : List Nat
  list_stations : List String
deriving DecidableEq

/-- bixi2np: decode the file, sort stations by key, build the uint8 bikes
and max-bikes arrays and the uint32 seconds array, and return the maximum
of the seconds array as the measurement time.  numpy max over an empty
array raises, modelled as the `uncaught` error. -/
def bixi2np (parsed : Option Tree) : Except DecodeErr NpOut := do
  let d ← bixi2dict parsed
  let srt := sortByKey d
  let comms := srt.map (fun p => lastCommSeconds p.2)
  match comms with
  | [] => .error .uncaught
  | c :: cs =>
    .ok ⟨cs.foldl Nat.max c,
      srt.map (fun p => bikesEntry p.2),
      srt.map (fun p => maxBikesEntry p.2),
      srt.map (fun p => p.1)⟩

/-! ### Day accumulator: read_day -/

/-- The fields of a station dictionary kept in stations_metadata after the
volatile keys nbBikes, lastCommWithServer, lastUpdateTime, terminalName
and nbEmptyDocks are deleted. -/
structure StationMeta where
  id : Int
  installed : Bool
  lat : Rat
  locked : Bool
  long : Rat
  name : Option RawVal
  public : Bool
  temporary : Bool
deriving DecidableEq

/-- Strip the volatile fields of a decoded record, as read_day does when
it stores station metadata. -/
def stripVolatile (r : StationRec) : StationMeta :=
  ⟨r.id, r.installed, r.lat, r.locked, r.long, r.name, r.public, r.temporary⟩

/-- One station entry of one decoded snapshot as read_day consumes it:
the zipped (station, bikes, max bikes) triple from bixi2np together with
the stripped metadata read_day fetches from bixi2dict on first sight. -/
structure DayRec where
  station : String
  bikes : Nat
  maxBikes : Nat
  meta : StationMeta
deriving DecidableEq

/-- One decoded capture as read_day consumes it: the bixi2np measurement
time and the per-station entries in sorted-key order. -/
structure Snapshot where
  time : Nat
  records : List DayRec
deriving DecidableEq

/-- The mutable state of the read_day loop: the time vector and the three
station-keyed dictionaries. -/
structure DayState where
  time_vector : List Nat
  bikes_available : String → Option (List (Option Nat))
  max_bikes : String → Option (List (Option Nat))
  stations_metadata : String → Option StationMeta

/-- The initial read_day state: empty time vector, empty dictionaries. -/
def initDayState : DayState :=
  ⟨[], fun _ => none, fun _ => none, fun _ => none⟩

/-- The per-station body of the read_day snapshot loop.  `T` is the length
of the time vector after the current time was appended.  A known station
gets its bikes and max-bikes values appended; a new station gets a fresh
all-missing series of length `T` whose last slot holds the value, and its
stripped metadata is stored. -/
def addRecord (T : Nat) (st : DayState) (r : DayRec) : DayState :=
  match st.bikes_available r.station with
  | some l =>
    { st with
      bikes_available := fun s =>
        if s = r.station then some (l ++ [some r.bikes]) else st.bikes_available s,
      max_bikes := fun s =>
        if s = r.station then (st.max_bikes r.station).map (fun m => m ++ [some r.maxBikes])
        else st.max_bikes s }
  | none =>
    { st with
      bikes_available := fun s =>
        if s = r.station then some (List.replicate (T - 1) none ++ [some r.bikes])
        else st.bikes_available s,
      max_bikes := fun s =>
        if s = r.station then some (List.replicate (T - 1) none ++ [some r.maxBikes])
        else st.max_bikes s,
      stations_metadata := fun s =>
        if s = r.station then some r.meta else st.stations_metadata s }

/-- Feed one decoded snapshot to the read_day state: a measurement time
already present in the time vector makes the whole snapshot a no-op;
otherwise the time is appended and every record is routed to its
station. -/
def stepSnapshot (st : DayState) (snap : Snapshot) : DayState :=
  if snap.time ∈ st.time_vector then st
  else
    let tv := st.time_vector ++ [snap.time]
    snap.records.foldl (addRecord tv.length) { st with time_vector := tv }

/-- The read_day file loop over the decoded captures; a file whose decode
raised BadXMLFile is skipped (`none`). -/
def read_day_accumulate (snaps : List (Option Snapshot)) : DayState :=
  snaps.foldl
    (fun st o =>
      match o with
      | none => st
      | some s => stepSnapshot st s)
    initDayState

/-- The final length-repair pass of read_day: every station series shorter
than the time vector is padded at the tail with missing values; the pad
length for both series is computed from the bikes series deficit. -/
def padState (st : DayState) : DayState :=
  let T := st.time_vector.length
  { st with
    bikes_available := fun s =>
      (st.bikes_available s).map (fun l =>
        if l.length < T then l ++ List.replicate (T - l.length) none else l),
    max_bikes := fun s =>
      match st.bikes_available s with
      | some lb =>
        if lb.length < T then
          (st.max_bikes s).map (fun m => m ++ List.replicate (T - lb.length) none)
        else st.max_bikes s
      | none => st.max_bikes s }

/-- read_day over a list of decoded captures: accumulate, then repair
lengths. -/
def read_day (snaps : List (Option Snapshot)) : DayState :=
  padState (read_day_accumulate snaps)

/-! ### Grid resampler: resample_time -/

/-- numpy arange over naturals. -/
def arange (start stop step : Nat) : List Nat :=
  (List.range ((stop - start + step - 1) / step)).map (fun i => start + step * i)

/-- Modelled from the spec: the external sklearn DecisionTreeRegressor
(not part of this repository) is specified as an unlimited-depth
piecewise-constant regression fit with deterministic tie-breaking; on 1-D
inputs it predicts the training value of the nearest training sample,
resolving ties toward the earlier sample. -/
def treePredict (pts : List (Rat × Rat)) (x : Rat) : Rat :=
  match pts with
  | [] => 0
  | p :: ps => (ps.foldl (fun best q => if |x - q.1| < |x - best.1| then q else best) p).2

/-- The vector branch of resample_time: fit the regressor on the (time,
value) pairs and evaluate it on the fixed grid arange(0, 1440, 2).
Fitting raises unless the two inputs are nonempty and of equal length
(modelled as `none`). -/
def resample_time (X : List Rat) (y : List Rat) : Option (List Nat × List Rat) :=
  if X.length = y.length ∧ 0 < y.length then
    some (arange 0 1440 2, (arange 0 1440 2).map (fun g : Nat => treePredict (X.zip y) (g : Rat)))
  else none

/-- The dictionary loop of resample_time: refit every value series against
the same time axis, threading the grid returned by the most recent
recursive call. -/
def resampleDictGo (X : List Rat) :
    List (String × List Rat) → Option (List Nat) →
      Option (Option (List Nat) × List (String × List Rat))
  | [], gLast => some (gLast, [])
  | p :: ps, _ => do
    let (g, f) ← resample_time X p.2
    let (gFin, rest) ← resampleDictGo X ps (some g)
    pure (gFin, (p.1, f) :: rest)

/-- The dictionary branch of resample_time: every series is refit
independently; the grid of the last key is returned.  An empty dictionary
leaves the grid variable unbound (NameError), modelled as `none`. -/
def resample_time_dict (X : List Rat) (y : List (String × List Rat)) :
    Option (List Nat × List (String × List Rat)) := do
  let (gLast, fitted) ← resampleDictGo X y none
  let g ← gLast
  pure (g, fitted)

/-! ### Time formatting: format_time and the time array of day2file -/

/-- format_time: rows are (day of year, weekday, minutes since the first
measurement).  The weekday and day-of-year of the whole day are computed
from the timestamp at fixed index 5 (the 6th measurement), so the access
is out of bounds for fewer than 6 measurements; index 0 is read too, for
the minute column, which the single bounds test here also covers.  The
calendar conversions of the datetime library are passed in as functions
of the epoch timestamp. -/
def format_time (weekdayOf ydayOf : Nat → Int) (t : List Nat) :
    Option (List (Int × Int × Rat)) :=
  if h : 5 < t.length then
    some (t.map (fun tk : Nat =>
      (ydayOf (t.get ⟨5, h⟩), weekdayOf (t.get ⟨5, h⟩), ((tk : Rat) - (t.headI : Rat)) / 60)))
  else none

/-- The time-array construction of day2file: format the raw time vector,
resample the bikes and max-bikes dictionaries against its minute column,
and rebuild the persisted array from the returned grid with the first
two columns of the first formatted row broadcast across all grid rows. -/
def day2file_time (weekdayOf ydayOf : Nat → Int) (t : List Nat)
    (x mx : List (String × List Rat)) : Option (List (Int × Int × Nat)) := do
  let ft ← format_time weekdayOf ydayOf t
  let minuteCol := ft.map (fun row => row.2.2)
  let _ ← resample_time_dict minuteCol x
  let (minute, _) ← resample_time_dict minuteCol mx
  match ft with
  | [] => none
  | row0 :: _ => pure (minute.map (fun g => (row0.1, row0.2.1, g)))

/-! ### Concrete fixtures and invariants used by the theorems below -/

/-- A fully valid station node carrying the given terminal name, raw
last-communication time, raw last-update time, bike count and empty-dock
count. -/
def sampleNode (term lastComm lastUpd nbB nbE : Int) : StationNode :=
  [⟨some "id", some (.num 1)⟩,
   ⟨some "lastCommWithServer", some (.num lastComm)⟩,
   ⟨some "lastUpdateTime", some (.num lastUpd)⟩,
   ⟨some "nbBikes", some (.num nbB)⟩,
   ⟨some "nbEmptyDocks", some (.num nbE)⟩,
   ⟨some "terminalName", some (.num term)⟩,
   ⟨some "installed", some (.num 1)⟩,
   ⟨some "locked", some (.num 0)⟩,
   ⟨some "public", some (.num 1)⟩,
   ⟨some "temporary", some (.num 0)⟩,
   ⟨some "lat", some (.num 45)⟩,
   ⟨some "long", some (.num (-73))⟩,
   ⟨some "name", some (.str "X")⟩]

/-- The record `sampleNode` decodes to. -/
def sampleRec (term lastComm lastUpd nbB nbE : Int) : StationRec :=
  ⟨1, lastComm, lastUpd, nbB, nbE, term, true, false, true, false, 45, -73, some (.str "X")⟩

/-- A station node identical to a valid one except that its
lastUpdateTime element carries a null content. -/
def nullUpdNode (term : Int) : StationNode :=
  [⟨some "id", some (.num 2)⟩,
   ⟨some "lastCommWithServer", some (.num 1000)⟩,
   ⟨some "lastUpdateTime", some .null⟩,
   ⟨some "nbBikes", some (.num 3)⟩,
   ⟨some "nbEmptyDocks", some (.num 4)⟩,
   ⟨some "terminalName", some (.num term)⟩,
   ⟨some "installed", some (.num 1)⟩,
   ⟨some "locked", some (.num 0)⟩,
   ⟨some "public", some (.num 1)⟩,
   ⟨some "temporary", some (.num 0)⟩,
   ⟨some "lat", some (.num 45)⟩,
   ⟨some "long", some (.num (-73))⟩,
   ⟨some "name", some (.str "Y")⟩]

/-- A decoded snapshot with one station A reporting the given bike count
at the given measurement time. -/
def mkSnapA (tm b : Nat) : Snapshot :=
  ⟨tm, [⟨"A", b, 10, ⟨1, true, 45, false, -73, none, true, false⟩⟩]⟩

/-- A decoded snapshot has pairwise distinct station keys; true for every
snapshot produced by bixi2np, whose stations are the sorted keys of a
dictionary. -/
def snapNodup : Option Snapshot → Bool
  | none => true
  | some s => decide (s.records.map DayRec.station).Nodup

/-- Alignment invariant of the read_day state: the bikes and max-bikes
dictionaries have the same keys, parallel series have equal length, and
no series is longer than `T`. -/
def Inv (T : Nat) (st : DayState) : Prop :=
  ∀ s : String,
    ((st.bikes_available s).isSome = (st.max_bikes s).isSome) ∧
    (∀ l m, st.bikes_available s = some l → st.max_bikes s = some m →
        m.length = l.length ∧ l.length ≤ T)

/-- Strengthened alignment invariant holding during the station loop of
one snapshot: stations still pending in the loop are strictly shorter
than the already-extended time vector. -/
def InvP (T : Nat) (pend : List String) (st : DayState) : Prop :=
  ∀ s : String,
    ((st.bikes_available s).isSome = (st.max_bikes s).isSome) ∧
    (∀ l m, st.bikes_available s = some l → st.max_bikes s = some m →
        m.length = l.length ∧ l.length ≤ T ∧ (s ∈ pend → l.length < T))

/-! ### Helper lemmas: decoder -/

/-- One failing station record makes the whole station loop fail,
whatever the accumulated dictionary holds. -/
lemma stationsFold_error (nodes : List StationNode) (node : StationNode)
    (hmem : node ∈ nodes) (hbad : coerceStation node = none) :
    ∀ acc, stationsFold acc nodes = .error .uncaught := by
  induction nodes with
  | nil => cases hmem
  | cons n rest ih =>
    intro acc
    rcases List.mem_cons.mp hmem with h | h
    · subst h
      simp [stationsFold, hbad]
    · cases hc : coerceStation n with
      | none => simp [stationsFold, hc]
      | some r =>
        simp only [stationsFold, hc]
        exact ih h _

/-- Membership in the insertion step of the key sort. -/
lemma mem_insertByKey (p a : String × StationRec) :
    ∀ l, a ∈ insertByKey p l ↔ a = p ∨ a ∈ l := by
  intro l
  induction l with
  | nil => simp [insertByKey]
  | cons q qs ih =>
    by_cases h : p.1 ≤ q.1
    · simp [insertByKey, h, List.mem_cons]
    · simp only [insertByKey, if_neg h, List.mem_cons, ih]
      tauto

/-- The key sort of bixi2np preserves membership. -/
lemma mem_sortByKey (a : String × StationRec) (l : List (String × StationRec)) :
    a ∈ sortByKey l ↔ a ∈ l := by
  induction l with
  | nil => simp [sortByKey]
  | cons q qs ih =>
    simp only [sortByKey, List.foldr_cons] at *
    rw [mem_insertByKey, ih, List.mem_cons]

/-- The start value never exceeds a left fold of Nat.max. -/
lemma le_foldl_max (c : Nat) (cs : List Nat) : c ≤ cs.foldl Nat.max c := by
  induction cs generalizing c with
  | nil => exact Nat.le_refl c
  | cons d ds ih => exact Nat.le_trans (Nat.le_max_left c d) (ih (Nat.max c d))

/-- A left fold of Nat.max is attained by one of its inputs. -/
lemma foldl_max_mem (c : Nat) (cs : List Nat) : cs.foldl Nat.max c ∈ c :: cs := by
  induction cs generalizing c with
  | nil => simp
  | cons d ds ih =>
    have hstep : List.foldl Nat.max c (d :: ds) = List.foldl Nat.max (Nat.max c d) ds := rfl
    rw [hstep]
    rcases List.mem_cons.mp (ih (Nat.max c d)) with h | h
    · rcases Nat.le_total c d with hm | hm
      · have hd : Nat.max c d = d := Nat.max_eq_right hm
        rw [h, hd]
        simp
      · have hd : Nat.max c d = c := Nat.max_eq_left hm
        rw [h, hd]
        simp
    · simp [List.mem_cons, h]

/-- A left fold of Nat.max dominates every input. -/
lemma foldl_max_le (c : Nat) (cs : List Nat) : ∀ v ∈ c :: cs, v ≤ cs.foldl Nat.max c := by
  induction cs generalizing c with
  | nil =>
    intro v hv
    rcases List.mem_cons.mp hv with h | h
    · subst h
      exact Nat.le_refl v
    · cases h
  | cons d ds ih =>
    intro v hv
    have hstep : List.foldl Nat.max c (d :: ds) = List.foldl Nat.max (Nat.max c d) ds := rfl
    rw [hstep]
    rcases List.mem_cons.mp hv with h | h
    · subst h
      exact Nat.le_trans (Nat.le_max_left v d) (le_foldl_max _ _)
    · rcases List.mem_cons.mp h with h2 | h2
      · subst h2
        exact Nat.le_trans (Nat.le_max_right c v) (le_foldl_max _ _)
      · exact ih (Nat.max c d) v (List.mem_cons_of_mem _ h2)

/-- Unfolding of a successful bixi2np run: the decode succeeded, its
sorted seconds column is nonempty, and the measurement time is the fold
of Nat.max over it. -/
lemma bixi2np_ok (t : Tree) (out : NpOut) (h : bixi2np (some t) = .ok out) :
    ∃ d c cs, bixi2dict (some t) = .ok d
      ∧ (sortByKey d).map (fun p => lastCommSeconds p.2) = c :: cs
      ∧ out.measurement_time = cs.foldl Nat.max c := by
  simp only [bixi2np, bind, Except.bind] at h
  split at h
  · cases h
  · rename_i d heq
    split at h
    · cases h
    · rename_i c cs hc
      cases h
      exact ⟨d, c, cs, heq, hc, rfl⟩

/-- The lastUpdateTime field of a successfully coerced station record is
the raw numeric content of the node, with no unit conversion. -/
lemma coerce_keeps_lastUpdateTime (node : StationNode) (rec : StationRec) (m : Int)
    (h : coerceStation node = some rec)
    (hm : (buildFields node).lookup "lastUpdateTime" = some (.num m)) :
    rec.lastUpdateTime = m := by
  simp only [coerceStation] at h
  split at h
  · rename_i idv lastComm lastUpd nbB nbE term inst lock pub temp latv longv
      h1 h2 h3 h4 h5 h6 h7 h8 h9 h10 h11 h12
    rw [lookInt, hm] at h3
    have h3m : some m = some lastUpd := h3
    cases h
    exact (Option.some.inj h3m).symm
  · exact Option.noConfusion h

/-! ### C2, C3, C6, C7: decoder claims -/

/-- C2: the claim states that a record missing a required numeric field
(null lastUpdateTime) is silently dropped and the decode succeeds with
the remaining records.  Counterexample: a file with one fully valid
record and one record whose lastUpdateTime is null makes the whole decode
fail with an uncaught error, even though the valid record alone would
have decoded. -/
theorem c2_counterexample :
    bixi2dict (some ⟨some (.num 999), [sampleNode 7001 5000000 123456 5 10, nullUpdNode 7002]⟩)
      = .error .uncaught
    ∧ coerceStation (sampleNode 7001 5000000 123456 5 10)
      = some (sampleRec 7001 5000000 123456 5 10)
    ∧ (buildFields (nullUpdNode 7002)).lookup "lastUpdateTime" = some .null := by
  refine ⟨rfl, by decide, by decide⟩

/-- C2 (amended): a station record whose required numeric fields fail
coercion is not dropped; the whole decode fails with an uncaught error
(not BadXMLFile), yielding no records at all. -/
theorem c2_missing_field_fails_decode (t : Tree) (node : StationNode)
    (hmem : node ∈ t.children) (hbad : coerceStation node = none) :
    bixi2dict (some t) = .error .uncaught := by
  unfold bixi2dict
  exact stationsFold_error t.children node hmem hbad []

/-- C2 witness: a file holding only the null-lastUpdateTime record fails
to decode. -/
theorem c2_witness :
    coerceStation (nullUpdNode 7002) = none
    ∧ bixi2dict (some ⟨none, [nullUpdNode 7002]⟩) = .error .uncaught := by
  refine ⟨by decide, ?_⟩
  exact c2_missing_field_fails_decode ⟨none, [nullUpdNode 7002]⟩ (nullUpdNode 7002)
    (by simp) (by decide)

/-- C3: the claim states that decode returns the top-level network update
timestamp of the file.  Counterexample: a file whose top-level attribute
parses as 999 while its single station has lastCommWithServer 5000000 ms
decodes successfully with measurement time 5000, not 999. -/
theorem c3_counterexample :
    bixi2np (some ⟨some (.num 999), [sampleNode 7001 5000000 123456 5 10]⟩)
      = .ok ⟨5000, [5], [15], ["7001"]⟩
    ∧ pyInt (.num 999) = some 999
    ∧ (5000 : Nat) ≠ 999 := by
  refine ⟨?_, rfl, by decide⟩
  show Except.ok _ = _
  rfl

set_option maxRecDepth 4000 in
/-- C3 (amended): bixi2np never reads the top-level update attribute: its
result is unchanged under any value of that attribute, including a
missing one; the measurement time it returns is the maximum over the
decoded station records of the truncating division of lastCommWithServer
by 1000 (wrapped to uint32). -/
theorem c3_measurement_time_is_max (t : Tree) (out : NpOut)
    (h : bixi2np (some t) = .ok out) :
    (∀ v w : Option RawVal,
        bixi2np (some ⟨v, t.children⟩) = bixi2np (some ⟨w, t.children⟩))
    ∧ ∃ d, bixi2dict (some t) = .ok d
        ∧ out.measurement_time ∈ d.map (fun p => lastCommSeconds p.2)
        ∧ ∀ c ∈ d.map (fun p => lastCommSeconds p.2), c ≤ out.measurement_time := by
  constructor
  · intro v w
    rfl
  · obtain ⟨d, c, cs, hd, hmap, htime⟩ := bixi2np_ok t out h
    refine ⟨d, hd, ?_, ?_⟩
    · have hmem : out.measurement_time ∈ c :: cs := htime ▸ foldl_max_mem c cs
      rw [← hmap] at hmem
      rcases List.mem_map.mp hmem with ⟨p, hp, hv⟩
      exact List.mem_map.mpr ⟨p, (mem_sortByKey p d).mp hp, hv⟩
    · intro v hv
      rcases List.mem_map.mp hv with ⟨p, hp, hvp⟩
      have hp2 : p ∈ sortByKey d := (mem_sortByKey p d).mpr hp
      have : v ∈ c :: cs := by
        rw [← hmap]
        exact List.mem_map.mpr ⟨p, hp2, hvp⟩
      rw [htime]
      exact foldl_max_le c cs v this

set_option maxRecDepth 4000 in
/-- C3 witness: a concrete successful decode, and the same decode with
the top-level attribute entirely absent yields the same output. -/
theorem c3_witness :
    bixi2np (some ⟨some (.num 999), [sampleNode 7001 5000000 123456 5 10]⟩)
      = .ok ⟨5000, [5], [15], ["7001"]⟩
    ∧ bixi2np (some ⟨none, [sampleNode 7001 5000000 123456 5 10]⟩)
      = .ok ⟨5000, [5], [15], ["7001"]⟩ := by
  have h : bixi2np (some ⟨some (.num 999), [sampleNode 7001 5000000 123456 5 10]⟩)
      = .ok ⟨5000, [5], [15], ["7001"]⟩ := by
    show Except.ok _ = _
    rfl
  refine ⟨h, ?_⟩
  have h2 := (c3_measurement_time_is_max _ _ h).1 none (some (.num 999))
  exact h2.trans h

/-- C6: the claim states that the decoder converts both timestamps from
milliseconds to seconds by floor division by 1000.  Counterexample: a
record with raw lastUpdateTime 5000 (milliseconds) decodes with
lastUpdateTime still 5000, not 5: the decoder never divides
lastUpdateTime. -/
theorem c6_counterexample :
    bixi2dict (some ⟨none, [sampleNode 7001 5000000 5000 5 10]⟩)
      = .ok [("7001", sampleRec 7001 5000000 5000 5 10)]
    ∧ (sampleRec 7001 5000000 5000 5 10).lastUpdateTime = 5000
    ∧ (5000 : Int) ≠ 5000 / 1000 := by
  refine ⟨rfl, rfl, by decide⟩

/-- C6 (amended): only lastCommWithServer is converted, and only in
bixi2np: there it becomes the floor of the raw millisecond value divided
by 1000 (wrapped to uint32; floor and truncation agree on the
non-negative raw values).  bixi2dict leaves lastUpdateTime exactly as the
raw numeric content, unconverted. -/
theorem c6_only_lastComm_converted (r : StationRec) (n : Nat)
    (hc : r.lastCommWithServer = (n : Int)) :
    lastCommSeconds r = (n / 1000) % 4294967296
    ∧ ∀ (node : StationNode) (rec : StationRec) (m : Int),
        coerceStation node = some rec →
        (buildFields node).lookup "lastUpdateTime" = some (.num m) →
        rec.lastUpdateTime = m := by
  constructor
  · unfold lastCommSeconds u32
    rw [hc]
    have : Int.tdiv (n : Int) 1000 = ((n / 1000 : Nat) : Int) := rfl
    rw [this]
    omega
  · exact coerce_keeps_lastUpdateTime

/-- C6 witness: the conversion evaluated on the sample record. -/
theorem c6_witness :
    (sampleRec 7001 5000000 123456 5 10).lastCommWithServer = ((5000000 : Nat) : Int)
    ∧ lastCommSeconds (sampleRec 7001 5000000 123456 5 10) = 5000000 / 1000 % 4294967296 := by
  refine ⟨rfl, ?_⟩
  exact (c6_only_lastComm_converted (sampleRec 7001 5000000 123456 5 10) 5000000 rfl).1

/-- C7: the claim states total docks equal bikes plus empty docks as
unbounded integer arithmetic for all non-negative inputs.
Counterexample: a record with 200 bikes and 100 empty docks decodes with
max-bikes 44, because bixi2np stores the sum into a uint8 slot, which
wraps 300 modulo 256. -/
theorem c7_counterexample :
    bixi2np (some ⟨none, [sampleNode 7001 5000000 123456 200 100]⟩)
      = .ok ⟨5000, [200], [44], ["7001"]⟩
    ∧ (44 : Nat) ≠ 200 + 100 := by
  refine ⟨?_, by decide⟩
  show Except.ok _ = _
  rfl

/-- C7 (amended): the derivation is uint8 arithmetic: the stored value is
(nbBikes mod 256 + nbEmptyDocks) mod 256, which equals the exact sum
precisely when nbBikes and nbEmptyDocks are non-negative and their sum is
below 256. -/
theorem c7_docks_derivation_u8 (r : StationRec)
    (hb : 0 ≤ r.nbBikes) (he : 0 ≤ r.nbEmptyDocks)
    (hlt : r.nbBikes + r.nbEmptyDocks < 256) :
    bikesEntry r = r.nbBikes.toNat
    ∧ maxBikesEntry r = (r.nbBikes + r.nbEmptyDocks).toNat := by
  unfold maxBikesEntry bikesEntry u8
  constructor
  · omega
  · omega

/-- C7 witness: the derivation evaluated on the sample record with 5
bikes and 10 empty docks. -/
theorem c7_witness :
    0 ≤ (sampleRec 7001 5000000 123456 5 10).nbBikes
    ∧ 0 ≤ (sampleRec 7001 5000000 123456 5 10).nbEmptyDocks
    ∧ (sampleRec 7001 5000000 123456 5 10).nbBikes
        + (sampleRec 7001 5000000 123456 5 10).nbEmptyDocks < 256
    ∧ maxBikesEntry (sampleRec 7001 5000000 123456 5 10)
        = ((sampleRec 7001 5000000 123456 5 10).nbBikes
            + (sampleRec 7001 5000000 123456 5 10).nbEmptyDocks).toNat := by
  refine ⟨by decide, by decide, by decide, ?_⟩
  exact (c7_docks_derivation_u8 (sampleRec 7001 5000000 123456 5 10)
    (by decide) (by decide) (by decide)).2

/-! ### Helper lemmas: resampler and time formatting -/

/-- The fixed grid has exactly 720 points. -/
lemma arange_length : (arange 0 1440 2).length = 720 := by
  simp [arange]

/-- The fixed grid point at index i is 2 * i. -/
lemma arange_get (i : Nat) (h : i < 720) : (arange 0 1440 2)[i]? = some (2 * i) := by
  simp [arange, List.getElem?_map, List.getElem?_range, h]

/-- Unfolding of the dictionary loop of resample_time on well-formed
series: every key refit against the fixed grid, the threaded grid being
the fixed grid as soon as one key exists. -/
lemma resampleDictGo_eq (X : List Rat) :
    ∀ (y : List (String × List Rat)) (g0 : Option (List Nat)),
      (∀ p ∈ y, p.2.length = X.length ∧ 0 < p.2.length) →
      resampleDictGo X y g0 =
        some ((if y.isEmpty then g0 else some (arange 0 1440 2)),
          y.map (fun p =>
            (p.1, (arange 0 1440 2).map (fun g : Nat => treePredict (X.zip p.2) (g : Rat))))) := by
  intro y
  induction y with
  | nil =>
    intro g0 _
    simp [resampleDictGo]
  | cons p ps ih =>
    intro g0 hwf
    have hp := hwf p (List.mem_cons_self p ps)
    have hrt : resample_time X p.2 =
        some (arange 0 1440 2,
          (arange 0 1440 2).map (fun g : Nat => treePredict (X.zip p.2) (g : Rat))) := by
      unfold resample_time
      rw [if_pos ⟨hp.1.symm, hp.2⟩]
    have ihh := ih (some (arange 0 1440 2)) (fun q hq => hwf q (List.mem_cons_of_mem _ hq))
    simp [resampleDictGo, hrt, ihh, bind, Option.bind]

/-- The dictionary branch of resample_time on a nonempty well-formed
dictionary: the fixed grid, and every series refit against the same time
axis. -/
lemma resample_time_dict_eq (X : List Rat) (y : List (String × List Rat))
    (hne : y ≠ []) (hwf : ∀ p ∈ y, p.2.length = X.length ∧ 0 < p.2.length) :
    resample_time_dict X y =
      some (arange 0 1440 2,
        y.map (fun p =>
          (p.1, (arange 0 1440 2).map (fun g : Nat => treePredict (X.zip p.2) (g : Rat))))) := by
  unfold resample_time_dict
  rw [resampleDictGo_eq X y none hwf]
  cases y with
  | nil => exact absurd rfl hne
  | cons p ps => simp [bind, Option.bind]

/-- Unfolding of format_time on a vector holding at least 6 entries. -/
lemma format_time_pos (wf yf : Nat → Int) (t : List Nat) (h5 : 5 < t.length) :
    format_time wf yf t =
      some (t.map (fun tk : Nat =>
        (yf (t.get ⟨5, h5⟩), wf (t.get ⟨5, h5⟩),
          ((tk : Rat) - (t.headI : Rat)) / 60))) := by
  unfold format_time
  rw [dif_pos h5]

set_option maxRecDepth 40000 in
/-- The persisted time array of day2file on well-formed inputs: one row
per fixed grid point, first two columns broadcast from the 6th raw
measurement, grid minute in the third column. -/
lemma day2file_time_eq (wf yf : Nat → Int) (t : List Nat)
    (x mx : List (String × List Rat)) (ht : 5 < t.length)
    (hx : x ≠ []) (hmx : mx ≠ [])
    (hxl : ∀ p ∈ x, p.2.length = t.length)
    (hmxl : ∀ p ∈ mx, p.2.length = t.length) :
    day2file_time wf yf t x mx =
      some ((arange 0 1440 2).map (fun g =>
        (yf (t.get ⟨5, ht⟩), wf (t.get ⟨5, ht⟩), g))) := by
  have hft := format_time_pos wf yf t ht
  have hminlen :
      ((t.map (fun tk : Nat =>
        (yf (t.get ⟨5, ht⟩), wf (t.get ⟨5, ht⟩),
          ((tk : Rat) - (t.headI : Rat)) / 60))).map (fun row => row.2.2)).length
        = t.length := by
    simp
  have hpos : 0 < t.length := by omega
  have hx2 : ∀ p ∈ x, p.2.length =
      ((t.map (fun tk : Nat =>
        (yf (t.get ⟨5, ht⟩), wf (t.get ⟨5, ht⟩),
          ((tk : Rat) - (t.headI : Rat)) / 60))).map (fun row => row.2.2)).length
      ∧ 0 < p.2.length := by
    intro p hp
    rw [hminlen]
    exact ⟨hxl p hp, by rw [hxl p hp]; exact hpos⟩
  have hmx2 : ∀ p ∈ mx, p.2.length =
      ((t.map (fun tk : Nat =>
        (yf (t.get ⟨5, ht⟩), wf (t.get ⟨5, ht⟩),
          ((tk : Rat) - (t.headI : Rat)) / 60))).map (fun row => row.2.2)).length
      ∧ 0 < p.2.length := by
    intro p hp
    rw [hminlen]
    exact ⟨hmxl p hp, by rw [hmxl p hp]; exact hpos⟩
  have hrx := resample_time_dict_eq _ x hx hx2
  have hrmx := resample_time_dict_eq _ mx hmx hmx2
  cases t with
  | nil => simp at ht
  | cons t0 ts =>
    simp only [day2file_time, bind, Option.bind, hft]
    rw [hrx, hrmx]
    rfl

/-! ### C5, C8: resampler claims -/

/-- C5 (confirmed): for any input series of equal positive length, the
resampler returns the fixed grid of exactly 720 points, every 2 minutes
from 0 to 1438 inclusive, and a fitted value at each point. -/
theorem c5_resample_grid (X y : List Rat)
    (hlen : X.length = y.length) (hpos : 0 < y.length) :
    ∃ fitted, resample_time X y = some (arange 0 1440 2, fitted)
      ∧ (arange 0 1440 2).length = 720
      ∧ fitted.length = 720
      ∧ ∀ i, i < 720 → (arange 0 1440 2)[i]? = some (2 * i) := by
  refine ⟨(arange 0 1440 2).map (fun g : Nat => treePredict (X.zip y) (g : Rat)), ?_, arange_length,
    ?_, fun i hi => arange_get i hi⟩
  · unfold resample_time
    rw [if_pos ⟨hlen, hpos⟩]
  · rw [List.length_map]
    exact arange_length

/-- C5 witness: the resampler on a one-point series. -/
theorem c5_witness :
    ([(0 : Rat)].length = [(1 : Rat)].length) ∧ (0 < [(1 : Rat)].length)
    ∧ ∃ fitted, resample_time [0] [1] = some (arange 0 1440 2, fitted)
        ∧ fitted.length = 720 := by
  refine ⟨rfl, by decide, ?_⟩
  obtain ⟨f, h1, _, h3, _⟩ := c5_resample_grid [0] [1] rfl (by decide)
  exact ⟨f, h1, h3⟩

/-- C8 (confirmed): applied to a nonempty mapping of well-formed series,
resample_time yields the fixed grid together with the mapping in which
every series has been refit independently against the same time axis;
the grid is the same fixed grid for every key. -/
theorem c8_resample_mapping (X : List Rat) (y : List (String × List Rat))
    (hne : y ≠ []) (hwf : ∀ p ∈ y, p.2.length = X.length ∧ 0 < p.2.length) :
    resample_time_dict X y =
      some (arange 0 1440 2,
        y.map (fun p =>
          (p.1, (arange 0 1440 2).map (fun g : Nat => treePredict (X.zip p.2) (g : Rat))))) :=
  resample_time_dict_eq X y hne hwf

/-- C8 witness: the mapping branch on a single one-point series. -/
theorem c8_witness :
    ([("A", [(1 : Rat)])] ≠ ([] : List (String × List Rat)))
    ∧ (∀ p ∈ [("A", [(1 : Rat)])], p.2.length = [(0 : Rat)].length ∧ 0 < p.2.length)
    ∧ resample_time_dict [(0 : Rat)] [("A", [(1 : Rat)])] =
        some (arange 0 1440 2,
          [("A", [(1 : Rat)])].map (fun p =>
            (p.1, (arange 0 1440 2).map (fun g : Nat =>
              treePredict (([(0 : Rat)]).zip p.2) (g : Rat))))) := by
  refine ⟨by simp, by simp, ?_⟩
  exact c8_resample_mapping [(0 : Rat)] [("A", [(1 : Rat)])] (by simp) (by simp)

/-! ### C9, C10: persisted time array claims -/

/-- C9: the claim states the persisted time array has one row per raw
measurement whose third column is that measurement's minute of the day.
Counterexample: a day with 6 raw measurements persists a time array of
720 rows (one per resampling grid point), not 6. -/
theorem c9_counterexample :
    ∃ rows, day2file_time (fun _ => 2) (fun _ => 160) [0, 120, 240, 360, 480, 600]
        [("A", [1, 1, 1, 1, 1, 1])] [("A", [1, 1, 1, 1, 1, 1])] = some rows
      ∧ rows.length = 720
      ∧ [0, 120, 240, 360, 480, 600].length = 6
      ∧ rows.length ≠ [0, 120, 240, 360, 480, 600].length := by
  have h := day2file_time_eq (fun _ => 2) (fun _ => 160) [0, 120, 240, 360, 480, 600]
    [("A", [1, 1, 1, 1, 1, 1])] [("A", [1, 1, 1, 1, 1, 1])]
    (by decide) (by simp) (by simp) (by simp) (by simp)
  refine ⟨_, h, ?_, rfl, ?_⟩
  · rw [List.length_map]
    exact arange_length
  · rw [List.length_map, arange_length]
    decide

/-- C9 (amended): the persisted time array has one row per grid point
(720 rows); the day-of-year and weekday columns are derived once from
the 6th raw measurement's timestamp and broadcast identically across all
rows; the third column is the resampling grid minute 0, 2, ..., 1438. -/
theorem c9_time_array (wf yf : Nat → Int) (t : List Nat)
    (x mx : List (String × List Rat)) (ht : 5 < t.length)
    (hx : x ≠ []) (hmx : mx ≠ [])
    (hxl : ∀ p ∈ x, p.2.length = t.length)
    (hmxl : ∀ p ∈ mx, p.2.length = t.length) :
    ∃ rows, day2file_time wf yf t x mx = some rows
      ∧ rows.length = 720
      ∧ (∀ row ∈ rows, row.1 = yf (t.get ⟨5, ht⟩) ∧ row.2.1 = wf (t.get ⟨5, ht⟩))
      ∧ rows.map (fun row => row.2.2) = arange 0 1440 2 := by
  refine ⟨_, day2file_time_eq wf yf t x mx ht hx hmx hxl hmxl, ?_, ?_, ?_⟩
  · rw [List.length_map]
    exact arange_length
  · intro row hrow
    rcases List.mem_map.mp hrow with ⟨g, _, hg⟩
    rw [← hg]
    exact ⟨rfl, rfl⟩
  · have hcomp : ((fun row : Int × Int × Nat => row.2.2) ∘
        (fun g => (yf (t.get ⟨5, ht⟩), wf (t.get ⟨5, ht⟩), g))) = id := rfl
    rw [List.map_map, hcomp, List.map_id]

/-- C9 witness: the amended shape evaluated on a concrete 7-measurement
day. -/
theorem c9_witness :
    (5 < [0, 60, 120, 180, 240, 300, 360].length)
    ∧ ∃ rows, day2file_time (fun _ => 3) (fun _ => 161) [0, 60, 120, 180, 240, 300, 360]
          [("B", [2, 2, 2, 2, 2, 2, 2])] [("B", [2, 2, 2, 2, 2, 2, 2])] = some rows
        ∧ rows.length = 720 := by
  refine ⟨by decide, ?_⟩
  obtain ⟨rows, h1, h2, _, _⟩ := c9_time_array (fun _ => 3) (fun _ => 161)
    [0, 60, 120, 180, 240, 300, 360]
    [("B", [2, 2, 2, 2, 2, 2, 2])] [("B", [2, 2, 2, 2, 2, 2, 2])]
    (by decide) (by simp) (by simp) (by simp) (by simp)
  exact ⟨rows, h1, h2⟩

/-- C10 (confirmed): the time-formatting step reads the element at fixed
index 5, so with fewer than 6 accepted measurements it fails (and index
0 is read too, covering the empty case); the day export then also fails
rather than returning a result. -/
theorem c10_six_measurements_required (wf yf : Nat → Int) (t : List Nat)
    (x mx : List (String × List Rat)) (h : t.length < 6) :
    format_time wf yf t = none ∧ day2file_time wf yf t x mx = none := by
  have hft : format_time wf yf t = none := by
    have hnot : ¬ 5 < t.length := by omega
    unfold format_time
    rw [dif_neg hnot]
  exact ⟨hft, by simp [day2file_time, hft, bind, Option.bind]⟩

/-- C10 witness: a two-measurement day fails to format and to export. -/
theorem c10_witness :
    ([0, 60].length < 6)
    ∧ format_time (fun _ => 0) (fun _ => 0) [0, 60] = none
    ∧ day2file_time (fun _ => 0) (fun _ => 0) [0, 60] [] [] = none := by
  have h := c10_six_measurements_required (fun _ => 0) (fun _ => 0) [0, 60] [] [] (by decide)
  exact ⟨by decide, h.1, h.2⟩

/-! ### Helper lemmas: day accumulator -/

/-- The per-station body never touches the time vector. -/
lemma addRecord_time_vector (T : Nat) (st : DayState) (r : DayRec) :
    (addRecord T st r).time_vector = st.time_vector := by
  unfold addRecord
  split <;> rfl

/-- The station loop of one snapshot never touches the time vector. -/
lemma foldl_addRecord_time_vector (T : Nat) (recs : List DayRec) (st : DayState) :
    (recs.foldl (addRecord T) st).time_vector = st.time_vector := by
  induction recs generalizing st with
  | nil => rfl
  | cons r rs ih => rw [List.foldl_cons, ih, addRecord_time_vector]

/-- One record preserves the strengthened alignment invariant, consuming
its own station from the pending list. -/
lemma addRecord_invP (T : Nat) (st : DayState) (r : DayRec) (pend : List String)
    (hT : 0 < T) (hnotin : r.station ∉ pend)
    (h : InvP T (r.station :: pend) st) : InvP T pend (addRecord T st r) := by
  cases hb : st.bikes_available r.station with
  | some l =>
    have hiso := (h r.station).1
    rw [hb] at hiso
    obtain ⟨m, hm⟩ := Option.isSome_iff_exists.mp hiso.symm
    have hlm := (h r.station).2 l m hb hm
    have hlt : l.length < T := hlm.2.2 (List.mem_cons_self _ _)
    have hadd : addRecord T st r =
        { st with
          bikes_available := fun s =>
            if s = r.station then some (l ++ [some r.bikes]) else st.bikes_available s,
          max_bikes := fun s =>
            if s = r.station then
              (st.max_bikes r.station).map (fun mm => mm ++ [some r.maxBikes])
            else st.max_bikes s } := by
      unfold addRecord
      rw [hb]
    intro s
    rw [hadd]
    by_cases hs : s = r.station
    · subst hs
      constructor
      · simp [hm]
      · intro l2 m2 hl2 hm2
        simp [hm] at hl2 hm2
        subst hl2
        subst hm2
        refine ⟨by simp [hlm.1], by simp; omega, fun hmem => absurd hmem hnotin⟩
    · have h2 := h s
      constructor
      · simpa [hs] using h2.1
      · intro l2 m2 hl2 hm2
        simp [hs] at hl2 hm2
        have h3 := h2.2 l2 m2 hl2 hm2
        exact ⟨h3.1, h3.2.1, fun hmem => h3.2.2 (List.mem_cons_of_mem _ hmem)⟩
  | none =>
    have hadd : addRecord T st r =
        { st with
          bikes_available := fun s =>
            if s = r.station then some (List.replicate (T - 1) none ++ [some r.bikes])
            else st.bikes_available s,
          max_bikes := fun s =>
            if s = r.station then some (List.replicate (T - 1) none ++ [some r.maxBikes])
            else st.max_bikes s,
          stations_metadata := fun s =>
            if s = r.station then some r.meta else st.stations_metadata s } := by
      unfold addRecord
      rw [hb]
    intro s
    rw [hadd]
    by_cases hs : s = r.station
    · subst hs
      constructor
      · simp
      · intro l2 m2 hl2 hm2
        simp at hl2 hm2
        subst hl2
        subst hm2
        refine ⟨by simp, by simp; omega, fun hmem => absurd hmem hnotin⟩
    · have h2 := h s
      constructor
      · simpa [hs] using h2.1
      · intro l2 m2 hl2 hm2
        simp [hs] at hl2 hm2
        have h3 := h2.2 l2 m2 hl2 hm2
        exact ⟨h3.1, h3.2.1, fun hmem => h3.2.2 (List.mem_cons_of_mem _ hmem)⟩

/-- The station loop of one snapshot carries the strengthened invariant
to the plain one, given pairwise distinct stations. -/
lemma foldl_addRecord_inv (T : Nat) (hT : 0 < T) :
    ∀ (recs : List DayRec) (st : DayState),
      (recs.map DayRec.station).Nodup → InvP T (recs.map DayRec.station) st →
      Inv T (recs.foldl (addRecord T) st) := by
  intro recs
  induction recs with
  | nil =>
    intro st _ h s
    exact ⟨(h s).1, fun l m hl hm => ⟨((h s).2 l m hl hm).1, ((h s).2 l m hl hm).2.1⟩⟩
  | cons r rs ih =>
    intro st hnodup h
    rw [List.map_cons] at hnodup h
    obtain ⟨hnotin, hnodup2⟩ := List.nodup_cons.mp hnodup
    rw [List.foldl_cons]
    exact ih _ hnodup2 (addRecord_invP T st r _ hT hnotin h)

/-- One snapshot preserves the alignment invariant. -/
lemma stepSnapshot_inv (st : DayState) (snap : Snapshot)
    (h : Inv st.time_vector.length st)
    (hnodup : (snap.records.map DayRec.station).Nodup) :
    Inv (stepSnapshot st snap).time_vector.length (stepSnapshot st snap) := by
  by_cases hmem : snap.time ∈ st.time_vector
  · simpa [stepSnapshot, hmem] using h
  · have hstep : stepSnapshot st snap =
        snap.records.foldl (addRecord (st.time_vector ++ [snap.time]).length)
          { st with time_vector := st.time_vector ++ [snap.time] } := by
      simp [stepSnapshot, hmem]
    rw [hstep, foldl_addRecord_time_vector]
    apply foldl_addRecord_inv _ (by simp) _ _ hnodup
    intro s
    refine ⟨(h s).1, fun l m hl hm => ?_⟩
    have h2 := (h s).2 l m hl hm
    simp only [List.length_append, List.length_cons, List.length_nil]
    exact ⟨h2.1, by omega, fun _ => by omega⟩

/-- The whole file loop preserves the alignment invariant. -/
lemma foldl_snaps_inv :
    ∀ (snaps : List (Option Snapshot)) (st : DayState),
      (∀ o ∈ snaps, snapNodup o = true) → Inv st.time_vector.length st →
      Inv ((snaps.foldl
          (fun st o => match o with | none => st | some s => stepSnapshot st s)
          st).time_vector.length)
        (snaps.foldl
          (fun st o => match o with | none => st | some s => stepSnapshot st s) st) := by
  intro snaps
  induction snaps with
  | nil => intro st _ h; exact h
  | cons o os ih =>
    intro st hwf h
    rw [List.foldl_cons]
    have hos : ∀ q ∈ os, snapNodup q = true := fun q hq => hwf q (List.mem_cons_of_mem _ hq)
    cases o with
    | none => exact ih st hos h
    | some s =>
      have hnd : (s.records.map DayRec.station).Nodup :=
        of_decide_eq_true (hwf (some s) (List.mem_cons_self _ _))
      exact ih _ hos (stepSnapshot_inv st s h hnd)

/-- The accumulated day state satisfies the alignment invariant. -/
lemma accumulate_inv (snaps : List (Option Snapshot))
    (h : ∀ o ∈ snaps, snapNodup o = true) :
    Inv (read_day_accumulate snaps).time_vector.length (read_day_accumulate snaps) := by
  unfold read_day_accumulate
  apply foldl_snaps_inv snaps initDayState h
  intro s
  exact ⟨rfl, fun l m hl _ => Option.noConfusion hl⟩

/-- The final length-repair pass brings every series to exactly the time
vector length. -/
lemma padState_lengths (st : DayState) (h : Inv st.time_vector.length st) (s : String) :
    (∀ l, (padState st).bikes_available s = some l → l.length = st.time_vector.length)
    ∧ (∀ m, (padState st).max_bikes s = some m → m.length = st.time_vector.length) := by
  constructor
  · intro l hl
    simp only [padState] at hl
    rcases Option.map_eq_some'.mp hl with ⟨l0, hb0, hfl⟩
    have hiso := (h s).1
    rw [hb0] at hiso
    obtain ⟨m0, hm0⟩ := Option.isSome_iff_exists.mp hiso.symm
    have h2 := (h s).2 l0 m0 hb0 hm0
    by_cases hlt : l0.length < st.time_vector.length
    · rw [if_pos hlt] at hfl
      rw [← hfl]
      simp
      omega
    · rw [if_neg hlt] at hfl
      rw [← hfl]
      omega
  · intro m hm
    cases hb : st.bikes_available s with
    | none =>
      simp only [padState, hb] at hm
      have hiso := (h s).1
      rw [hb, hm] at hiso
      simp at hiso
    | some lb =>
      simp only [padState, hb] at hm
      by_cases hlt : lb.length < st.time_vector.length
      · rw [if_pos hlt] at hm
        rcases Option.map_eq_some'.mp hm with ⟨m0, hm0, hfm⟩
        have h2 := (h s).2 lb m0 hb hm0
        rw [← hfm]
        simp
        omega
      · rw [if_neg hlt] at hm
        have h2 := (h s).2 lb m hb hm
        omega

/-! ### C1, C4: day accumulator claims -/

set_option maxRecDepth 8000 in
/-- C1 (confirmed): feeding the same decoded snapshot a second time
leaves the accumulated state unchanged, and on the concrete scenario of
snapshots at network times 100, 100, 200 with one station reporting 5,
5, 7 bikes, the resulting series is the time vector [100, 200] with
bikes [5, 7] for that station: the duplicate-time snapshot is a
no-op. -/
theorem c1_idempotent_reingest :
    (∀ (st : DayState) (snap : Snapshot),
        stepSnapshot (stepSnapshot st snap) snap = stepSnapshot st snap)
    ∧ (read_day [some (mkSnapA 100 5), some (mkSnapA 100 5), some (mkSnapA 200 7)]).time_vector
        = [100, 200]
    ∧ (read_day [some (mkSnapA 100 5), some (mkSnapA 100 5),
          some (mkSnapA 200 7)]).bikes_available "A"
        = some [some 5, some 7] := by
  refine ⟨?_, by decide, by decide⟩
  have hid : ∀ (st : DayState) (snap : Snapshot), snap.time ∈ st.time_vector →
      stepSnapshot st snap = st := by
    intro st snap hmem
    simp [stepSnapshot, hmem]
  intro st snap
  by_cases h : snap.time ∈ st.time_vector
  · simp only [hid st snap h]
  · have htv : (stepSnapshot st snap).time_vector = st.time_vector ++ [snap.time] := by
      simp [stepSnapshot, h, foldl_addRecord_time_vector]
    have hmem : snap.time ∈ (stepSnapshot st snap).time_vector := by
      rw [htv]
      simp
    exact hid (stepSnapshot st snap) snap hmem

/-- C4 (confirmed): after a full day of ingestion, every station key
present in the result carries a bikes series and a max-bikes series of
length exactly the time vector length, the deficit having been padded at
the tail. -/
theorem c4_length_alignment (snaps : List (Option Snapshot))
    (h : ∀ o ∈ snaps, snapNodup o = true) (stn : String) :
    (∀ l, (read_day snaps).bikes_available stn = some l →
        l.length = (read_day snaps).time_vector.length)
    ∧ (∀ m, (read_day snaps).max_bikes stn = some m →
        m.length = (read_day snaps).time_vector.length) := by
  have hinv := accumulate_inv snaps h
  have hpad := padState_lengths (read_day_accumulate snaps) hinv stn
  exact hpad

set_option maxRecDepth 8000 in
/-- C4 witness: one snapshot of one station yields a one-point series
aligned with the one-point time vector. -/
theorem c4_witness :
    (∀ o ∈ [some (mkSnapA 100 5)], snapNodup o = true)
    ∧ [Option.some (5 : Nat)].length
        = (read_day [some (mkSnapA 100 5)]).time_vector.length := by
  have hwf : ∀ o ∈ [some (mkSnapA 100 5)], snapNodup o = true := by decide
  refine ⟨hwf, ?_⟩
  exact (c4_length_alignment [some (mkSnapA 100 5)] hwf "A").1 [some 5] (by decide)

end Bixi
